import Mathlib

/-!
Verification of the portfolio-tracker browser client.

Shallow embedding of the client's core logic:
* the holdings derivation and sort engine of `HoldingsTable`
  (enrichment with market value / book value / unrealized gain, and the
  column-sort comparator applied through the stable built-in array sort),
* the dashboard's portfolio-summary reduction,
* the authentication session lifecycle of `AuthProvider`
  (restore at process start, login, and the `ProtectedRoute` gate),
* the query-cache invalidation performed by the mutation hooks.

JavaScript numbers are modelled by `Rat` (the arithmetic in the source is
exact on the values the claims are about, and `Rat` has no NaN/Infinity so
the division guards are stated explicitly).  The built-in stable sort
(`Array.prototype.sort`, stable per the ECMAScript specification) is
modelled by `List.insertionSort`, which is also stable, applied to the
source's comparator turned into a Boolean "keeps-order" relation
`comparator a b ≤ 0`.
-/

namespace PortfolioTracker

/-! ## Data model (src/types, embedded `security` as used by the table) -/

/-- A tradable security as embedded in a holding: symbol, name and an
optional live price (`currentPrice?`). -/
structure Security where
  symbol : String
  name : String
  currentPrice : Option Rat
deriving DecidableEq

/-- A holding record as delivered by the backend: share count, optional
average cost, and the embedded security. -/
structure Holding where
  id : String
  portfolioId : String
  securityId : String
  totalShares : Rat
  averageCost : Option Rat
  security : Security
deriving DecidableEq

/-- The JavaScript expression `x || 0` on an optional number: absent values
default to 0 (a present 0 is also 0, so the falsy-zero coercion agrees). -/
def orZero : Option Rat → Rat
  | none => 0
  | some q => q

/-! ## Holdings derivation (HoldingsTable, `enrichedHoldings`) -/

/-- A holding together with the display fields computed by the table.  The
source spreads the original holding (`...holding`) and adds the computed
fields, so the record is flat. -/
structure EnrichedHolding where
  id : String
  portfolioId : String
  securityId : String
  totalShares : Rat
  averageCost : Option Rat
  security : Security
  currentPrice : Rat
  marketValue : Rat
  bookValue : Rat
  unrealizedGain : Rat
  unrealizedGainPercent : Rat
deriving DecidableEq

/-- The body of the `enrichedHoldings` map in `HoldingsTable`:
`currentPrice = security.currentPrice || 0`,
`marketValue = totalShares * currentPrice`,
`bookValue = totalShares * (averageCost || 0)`,
`unrealizedGain = marketValue - bookValue`,
`unrealizedGainPercent = bookValue > 0 ? unrealizedGain / bookValue : 0`. -/
def enrich (h : Holding) : EnrichedHolding :=
  let currentPrice := orZero h.security.currentPrice
  let marketValue := h.totalShares * currentPrice
  let bookValue := h.totalShares * orZero h.averageCost
  let unrealizedGain := marketValue - bookValue
  let unrealizedGainPercent := if bookValue > 0 then unrealizedGain / bookValue else 0
  { id := h.id
    portfolioId := h.portfolioId
    securityId := h.securityId
    totalShares := h.totalShares
    averageCost := h.averageCost
    security := h.security
    currentPrice := currentPrice
    marketValue := marketValue
    bookValue := bookValue
    unrealizedGain := unrealizedGain
    unrealizedGainPercent := unrealizedGainPercent }

/-- `enrichedHoldings` of `HoldingsTable`: map `enrich` over the list. -/
def enrichedHoldings (hs : List Holding) : List EnrichedHolding :=
  hs.map enrich

/-! ## Sorting (HoldingsTable, `sortedHoldings`) -/

/-- The sortable columns (`type SortField`). -/
inductive SortField where
  | symbol | shares | price | cost | value | gain | gainPercent
deriving DecidableEq

/-- Sort direction (`type SortDirection`). -/
inductive SortDirection where
  | asc | desc
deriving DecidableEq

/-- The value extracted from a row by the comparator's `switch`: a string
for the `symbol` column, a number for every other column. -/
inductive SortValue where
  | str (s : String)
  | num (q : Rat)
deriving DecidableEq

/-- The `switch (sortField)` of the comparator in `sortedHoldings`,
extracting the compared value from one row. -/
def sortValue (f : SortField) (e : EnrichedHolding) : SortValue :=
  match f with
  | .symbol => .str e.security.symbol
  | .shares => .num e.totalShares
  | .price => .num e.currentPrice
  | .cost => .num (orZero e.averageCost)
  | .value => .num e.marketValue
  | .gain => .num e.unrealizedGain
  | .gainPercent => .num e.unrealizedGainPercent

/-- `String.prototype.localeCompare` as used by the comparator: only its
sign matters, modelled as the sign of the lexicographic comparison. -/
def localeCompare (a b : String) : Rat :=
  if a < b then -1 else if b < a then 1 else 0

/-- Ascending comparison of two extracted values, as the comparator body
computes it: `localeCompare` for strings, subtraction for numbers.  The
mixed-constructor rows are unreachable (for a fixed field `sortValue`
always returns the same constructor); they are given the constant values
-1 and 1 so that the relation is total and transitive. -/
def compareValues : SortValue → SortValue → Rat
  | .str x, .str y => localeCompare x y
  | .num x, .num y => x - y
  | .str _, .num _ => -1
  | .num _, .str _ => 1

/-- The comparator passed to the array sort: ascending compares
`(aValue, bValue)`, descending swaps the operands in both the string and
the numeric branch (`bValue.localeCompare(aValue)` / `bValue - aValue`). -/
def comparator (f : SortField) (d : SortDirection) (a b : EnrichedHolding) : Rat :=
  match d with
  | .asc => compareValues (sortValue f a) (sortValue f b)
  | .desc => compareValues (sortValue f b) (sortValue f a)

/-- The "keeps-order" relation induced by the comparator: a stable sort
keeps `a` before `b` exactly when the comparator is non-positive. -/
def sortLE (f : SortField) (d : SortDirection) (a b : EnrichedHolding) : Prop :=
  comparator f d a b ≤ 0

instance (f : SortField) (d : SortDirection) : DecidableRel (sortLE f d) :=
  fun a b => inferInstanceAs (Decidable (comparator f d a b ≤ 0))

/-- `sortedHoldings` of `HoldingsTable` composed with `enrichedHoldings`
(the spec's `deriveAndSort`): enrich, then sort a copy of the array with
the comparator.  `Array.prototype.sort` is stable, modelled by the stable
`List.insertionSort`. -/
def deriveAndSort (hs : List Holding) (f : SortField) (d : SortDirection) :
    List EnrichedHolding :=
  List.insertionSort (sortLE f d) (enrichedHoldings hs)

/-! ## Summary (DashboardPage `summary`, spec's Summary Aggregator) -/

/-- Portfolio-level totals. -/
structure PortfolioSummary where
  totalValue : Rat
  totalCost : Rat
  totalGain : Rat
  totalGainPercent : Rat
deriving DecidableEq

/-- The `summary` memo of `DashboardPage`: an all-zero record for an empty
list, otherwise two `reduce` passes over the raw holdings followed by the
gain and percentage formulas. -/
def dashboardSummary (holdings : List Holding) : PortfolioSummary :=
  if holdings.length = 0 then
    { totalValue := 0, totalCost := 0, totalGain := 0, totalGainPercent := 0 }
  else
    let totalValue :=
      holdings.foldl (fun sum h => sum + h.totalShares * orZero h.security.currentPrice) 0
    let totalCost :=
      holdings.foldl (fun sum h => sum + h.totalShares * orZero h.averageCost) 0
    let totalGain := totalValue - totalCost
    let totalGainPercent := if totalCost > 0 then totalGain / totalCost else 0
    { totalValue := totalValue
      totalCost := totalCost
      totalGain := totalGain
      totalGainPercent := totalGainPercent }

/-- The spec's Summary Aggregator (`summarize`), written from its words:
sum `marketValue` and `bookValue` over the *enriched* holdings, then derive
`totalGain` and `totalGainPercent`.  Compared with `dashboardSummary` in
the refinement theorem. -/
def summarize (es : List EnrichedHolding) : PortfolioSummary :=
  let totalValue := (es.map (fun e => e.marketValue)).sum
  let totalCost := (es.map (fun e => e.bookValue)).sum
  let totalGain := totalValue - totalCost
  let totalGainPercent := if totalCost > 0 then totalGain / totalCost else 0
  { totalValue := totalValue
    totalCost := totalCost
    totalGain := totalGain
    totalGainPercent := totalGainPercent }

/-! ## Session store (AuthProvider) and durable storage -/

/-- The authenticated identity: `AuthUser` with `id`, `email`, optional
`fullName`. -/
structure AuthUser where
  id : String
  email : String
  fullName : Option String
deriving DecidableEq

/-- Durable local storage as laid out in the spec: one key holding the
opaque credential string, one key holding the serialized identity record.
`none` models an absent key. -/
structure Storage where
  token : Option String
  user : Option String
deriving DecidableEq

/-- Modelled from the spec: `getAuthToken` of `api/client.ts` (the file is
truncated in the source tree) reads the credential key of durable local
storage. -/
def getAuthToken (s : Storage) : Option String :=
  s.token

/-- Modelled from the spec: `setAuthToken` of `api/client.ts` writes the
credential key of durable local storage. -/
def setAuthToken (t : String) (s : Storage) : Storage :=
  { s with token := some t }

/-- Modelled from the spec: `clearAuthToken` of `api/client.ts` removes the
credential key from durable local storage. -/
def clearAuthToken (s : Storage) : Storage :=
  { s with token := none }

/-! ### A small JSON object parser

Modelled from the spec: `JSON.parse` applied to the stored identity record
(a flat object with string fields `id`, `email`, optional `fullName`, as
produced by `JSON.stringify(response.user)`), returning `none` exactly when
the stored text does not parse as such structured data.  Character
constants are written by code point. -/

def lbraceChar : Char := Char.ofNat 123
def rbraceChar : Char := Char.ofNat 125
def quoteChar : Char := Char.ofNat 34
def colonChar : Char := Char.ofNat 58
def commaChar : Char := Char.ofNat 44
def spaceChar : Char := Char.ofNat 32

/-- Drop leading spaces. -/
def skipWs : List Char → List Char
  | [] => []
  | c :: cs => if c = spaceChar then skipWs cs else c :: cs

/-- Read characters up to the closing quote; fails at end of input. -/
def spanString : List Char → Option (List Char × List Char)
  | [] => none
  | c :: cs =>
    if c = quoteChar then some ([], cs)
    else
      match spanString cs with
      | some (s, rest) => some (c :: s, rest)
      | none => none

/-- Parse a quoted string literal (no escape sequences). -/
def parseStringLit (cs : List Char) : Option (String × List Char) :=
  match skipWs cs with
  | c :: rest =>
    if c = quoteChar then (spanString rest).map (fun p => (String.mk p.1, p.2))
    else none
  | [] => none

/-- Parse `"key" : "value"` members separated by commas, consuming the
closing brace.  Fuelled to make the recursion structural. -/
def parseMembers : Nat → List Char → Option (List (String × String) × List Char)
  | 0, _ => none
  | fuel + 1, cs =>
    match parseStringLit cs with
    | none => none
    | some (k, cs₁) =>
      match skipWs cs₁ with
      | c :: cs₂ =>
        if c = colonChar then
          match parseStringLit cs₂ with
          | none => none
          | some (v, cs₃) =>
            match skipWs cs₃ with
            | c₂ :: cs₄ =>
              if c₂ = commaChar then
                match parseMembers fuel cs₄ with
                | some (ps, rest) => some ((k, v) :: ps, rest)
                | none => none
              else if c₂ = rbraceChar then some ([(k, v)], cs₄)
              else none
            | [] => none
        else none
      | [] => none

/-- Parse one flat JSON object covering the whole input. -/
def parseObject (cs : List Char) : Option (List (String × String)) :=
  match skipWs cs with
  | c :: rest =>
    if c = lbraceChar then
      match skipWs rest with
      | c₂ :: rest₂ =>
        if c₂ = rbraceChar then
          if (skipWs rest₂).isEmpty then some [] else none
        else
          match parseMembers (rest.length + 1) (c₂ :: rest₂) with
          | some (ps, rest₃) => if (skipWs rest₃).isEmpty then some ps else none
          | none => none
      | [] => none
    else none
  | [] => none

/-- First value bound to a key in a member list. -/
def lookupField (ps : List (String × String)) (k : String) : Option String :=
  match ps with
  | [] => none
  | (k₂, v) :: rest => if k₂ = k then some v else lookupField rest k

/-- Modelled from the spec: parsing the stored identity.  Succeeds exactly
when the text is a flat JSON object with string fields containing `id` and
`email` (with `fullName` optional); any other text — in particular text
that is not valid JSON — yields `none`, which the caller treats as the
thrown parse error. -/
def parseAuthUser (s : String) : Option AuthUser :=
  match parseObject s.data with
  | some ps =>
    match lookupField ps "id", lookupField ps "email" with
    | some id, some email =>
      some { id := id, email := email, fullName := lookupField ps "fullName" }
    | _, _ => none
  | none => none

/-- A quoted string as a character list. -/
def quoted (s : String) : List Char :=
  quoteChar :: s.data ++ [quoteChar]

/-- Modelled from the spec: `JSON.stringify` of the identity record. -/
def serializeAuthUser (u : AuthUser) : String :=
  let base :=
    quoted "id" ++ [colonChar] ++ quoted u.id ++ [commaChar] ++
    quoted "email" ++ [colonChar] ++ quoted u.email
  let withName :=
    match u.fullName with
    | none => base
    | some n => base ++ [commaChar] ++ quoted "fullName" ++ [colonChar] ++ quoted n
  String.mk (lbraceChar :: withName ++ [rbraceChar])

/-! ### Provider state and the restore routine -/

/-- The provider's React state: `user` (useState null) and `isLoading`
(useState false). -/
structure AuthState where
  user : Option AuthUser
  isLoading : Bool
deriving DecidableEq

/-- The state at process start, straight from the two `useState` calls of
`AuthProvider`: no user, and `isLoading` initialized to `false`. -/
def initialAuthState : AuthState :=
  { user := none, isLoading := false }

/-- JavaScript truthiness of a nullable string: `null` and the empty string
are falsy. -/
def strTruthy : Option String → Bool
  | none => false
  | some s => !(s == "")

/-- `initializeAuth` of `AuthProvider`: read the token and the saved user;
if both are (truthily) present, parse the saved user and set it; a parse
failure is caught — the catch clears the token and removes the saved user
(the `setUser(null)` line is commented out, so the user state is left as
it was); the `finally` sets `isLoading` to `false` in every path.  The
function is total: no error escapes it. -/
def initializeAuth (storage : Storage) (st : AuthState) : Storage × AuthState :=
  if strTruthy (getAuthToken storage) && strTruthy storage.user then
    match parseAuthUser (storage.user.getD "") with
    | some parsedUser => (storage, { user := some parsedUser, isLoading := false })
    | none =>
      ({ clearAuthToken storage with user := none }, { user := st.user, isLoading := false })
  else
    (storage, { st with isLoading := false })

/-- `isAuthenticated: !!user` of the context value. -/
def isAuthenticated (st : AuthState) : Bool :=
  st.user.isSome

/-! ### ProtectedRoute -/

/-- What `ProtectedRoute` renders. -/
inductive RenderResult where
  | loadingPage
  | redirectToLogin
  | content
deriving DecidableEq

/-- `ProtectedRoute`: loading page while `isLoading`, redirect to login when
not authenticated, otherwise the protected children. -/
def protectedRoute (st : AuthState) : RenderResult :=
  if st.isLoading then .loadingPage
  else if !(isAuthenticated st) then .redirectToLogin
  else .content

/-! ### Login -/

/-- The gateway's successful login payload. -/
structure AuthResponse where
  token : String
  user : AuthUser
deriving DecidableEq

/-- A user-visible transient notification. -/
inductive Toast where
  | success (title description : String)
  | failure (title description : String)
deriving DecidableEq

/-- Everything observable after `login` returns or throws. -/
structure LoginOutcome where
  storage : Storage
  state : AuthState
  toasts : List Toast
  navigatedTo : Option String
  threw : Option String
deriving DecidableEq

/-- Modelled from the spec: `ROUTES.DASHBOARD` (the `ROUTES` table is
truncated out of `utils/constants.ts`). -/
def dashboardRoute : String := "/dashboard"

/-- `login` of `AuthProvider`, as a function of the gateway result.  On
success: store the token, store the serialized user, set the user state,
emit a success toast, navigate to the dashboard.  On failure: emit a
failure toast and re-throw (`threw` records the re-thrown error); neither
storage nor the user state is touched.  The `finally` resets `isLoading`. -/
def loginModel (gatewayResult : Except String AuthResponse) (storage : Storage)
    (st : AuthState) : LoginOutcome :=
  match gatewayResult with
  | .ok response =>
    { storage := { setAuthToken response.token storage with
                     user := some (serializeAuthUser response.user) }
      state := { user := some response.user, isLoading := false }
      toasts := [Toast.success "Welcome back!" response.user.email]
      navigatedTo := some dashboardRoute
      threw := none }
  | .error e =>
    { storage := storage
      state := { st with isLoading := false }
      toasts := [Toast.failure "Login Failed" e]
      navigatedTo := none
      threw := some e }

/-! ## Query cache layer (useTransactions.ts / useHoldings.ts) -/

/-- One cached query result: its key, an abstract payload, and whether it
has been marked invalidated. -/
structure CacheEntry where
  key : List String
  data : String
  invalidated : Bool
deriving DecidableEq

/-- The query cache. -/
abbrev Cache := List CacheEntry

/-- TanStack prefix matching: a cache entry matches an `invalidateQueries`
call when the given query key is a prefix of the entry's key. -/
def keyMatches : List String → List String → Bool
  | _, [] => true
  | [], _ :: _ => false
  | k :: ks, p :: ps => k == p && keyMatches ks ps

/-- `queryClient.invalidateQueries`: mark every matching entry invalidated,
leaving its data in place. -/
def invalidateQueries (queryKey : List String) (c : Cache) : Cache :=
  c.map fun e => if keyMatches e.key queryKey then { e with invalidated := true } else e

/-- `holdingKeys.all`. -/
def holdingKeysAll : List String := ["holdings"]

/-- `holdingKeys.lists()`. -/
def holdingKeysLists : List String := holdingKeysAll ++ ["list"]

/-- `holdingKeys.list(portfolioId, userId)`. -/
def holdingKeysList (portfolioId userId : String) : List String :=
  holdingKeysLists ++ [portfolioId, userId]

/-- `holdingKeys.details()`. -/
def holdingKeysDetails : List String := holdingKeysAll ++ ["detail"]

/-- `holdingKeys.detail(portfolioId, holdingId, userId)`. -/
def holdingKeysDetail (portfolioId holdingId userId : String) : List String :=
  holdingKeysDetails ++ [portfolioId, holdingId, userId]

/-- `portfolioKeys.all`. -/
def portfolioKeysAll : List String := ["portfolios"]

/-- Cache plus emitted toasts: the state a mutation hook can affect. -/
structure MutationState where
  cache : Cache
  toasts : List Toast
deriving DecidableEq

/-- The TanStack mutation lifecycle: run the network call (its settled
outcome is the argument), then exactly one of the two callbacks. -/
def runMutation {A E : Type} (onOk : A → MutationState → MutationState)
    (onErr : E → MutationState → MutationState)
    (outcome : Except E A) (st : MutationState) : MutationState :=
  match outcome with
  | .ok a => onOk a st
  | .error e => onErr e st

/-- Append a failure toast; the cache is untouched. -/
def toastOnError (title msg : String) (st : MutationState) : MutationState :=
  { st with toasts := st.toasts ++ [Toast.failure title msg] }

/-- `useCreateTransaction`: on success invalidate `holdingKeys.all` then
`portfolioKeys.all` and toast; on error only toast. -/
def runCreateTransaction (outcome : Except String Unit) (st : MutationState) :
    MutationState :=
  runMutation
    (fun _ s =>
      { cache := invalidateQueries portfolioKeysAll (invalidateQueries holdingKeysAll s.cache)
        toasts := s.toasts ++
          [Toast.success "Transaction added" "Your transaction has been recorded successfully."] })
    (fun e s => toastOnError "Failed to add transaction" e s)
    outcome st

/-- `useUpdateTransaction`: same invalidations as create, different toast. -/
def runUpdateTransaction (outcome : Except String Unit) (st : MutationState) :
    MutationState :=
  runMutation
    (fun _ s =>
      { cache := invalidateQueries portfolioKeysAll (invalidateQueries holdingKeysAll s.cache)
        toasts := s.toasts ++ [Toast.success "Transaction updated" "Changes saved successfully."] })
    (fun e s => toastOnError "Failed to update transaction" e s)
    outcome st

/-- `useDeleteTransaction`: same invalidations as create, different toast. -/
def runDeleteTransaction (outcome : Except String Unit) (st : MutationState) :
    MutationState :=
  runMutation
    (fun _ s =>
      { cache := invalidateQueries portfolioKeysAll (invalidateQueries holdingKeysAll s.cache)
        toasts := s.toasts ++
          [Toast.success "Transaction deleted" "The transaction has been removed successfully."] })
    (fun e s => toastOnError "Failed to delete transaction" e s)
    outcome st

/-- `useCreateHolding`: on success invalidate the holdings list of the
given portfolio and toast; the hook registers no `onError` handler, so the
default (nothing) runs on failure. -/
def runCreateHolding (portfolioId userId : String) (outcome : Except String Unit)
    (st : MutationState) : MutationState :=
  runMutation
    (fun _ s =>
      { cache := invalidateQueries (holdingKeysList portfolioId userId) s.cache
        toasts := s.toasts ++
          [Toast.success "Holding Created" "The new holding has been created successfully."] })
    (fun _ s => s)
    outcome st

/-- `useUpdateHolding`: on success invalidate the detail key as the source
calls it — `holdingKeys.detail(portfolioId, userId, holdingId)`, arguments
in the call's order — and toast; no `onError` handler. -/
def runUpdateHolding (portfolioId userId holdingId : String)
    (outcome : Except String Unit) (st : MutationState) : MutationState :=
  runMutation
    (fun _ s =>
      { cache := invalidateQueries (holdingKeysDetail portfolioId userId holdingId) s.cache
        toasts := s.toasts ++
          [Toast.success "Portfolio Updated" "The portfolio has been updated successfully."] })
    (fun _ s => s)
    outcome st

/-- `useDeleteHolding`: on success invalidate the holdings list of the
given portfolio and toast; no `onError` handler. -/
def runDeleteHolding (portfolioId userId : String) (outcome : Except String Unit)
    (st : MutationState) : MutationState :=
  runMutation
    (fun _ s =>
      { cache := invalidateQueries (holdingKeysList portfolioId userId) s.cache
        toasts := s.toasts ++
          [Toast.success "Holding Deleted" "The holding has been deleted successfully."] })
    (fun _ s => s)
    outcome st

/-! ## Order-theoretic facts about the comparator -/

theorem localeCompare_nonpos {a b : String} : localeCompare a b ≤ 0 ↔ a ≤ b := by
  unfold localeCompare
  rcases lt_trichotomy a b with h | h | h
  · rw [if_pos h]
    simp only [le_of_lt h, iff_true]
    norm_num
  · subst h
    rw [if_neg (lt_irrefl a), if_neg (lt_irrefl a)]
    simp [le_refl]
  · rw [if_neg (not_lt_of_gt h), if_pos h]
    simp only [not_le_of_gt h, iff_false]
    norm_num

theorem compareValues_total (x y : SortValue) :
    compareValues x y ≤ 0 ∨ compareValues y x ≤ 0 := by
  cases x <;> cases y <;> simp only [compareValues]
  case str.str a b =>
    rcases le_total a b with h | h
    · exact Or.inl (localeCompare_nonpos.mpr h)
    · exact Or.inr (localeCompare_nonpos.mpr h)
  case str.num => left; norm_num
  case num.str => right; norm_num
  case num.num a b =>
    rcases le_total a b with h | h
    · exact Or.inl (by linarith)
    · exact Or.inr (by linarith)

theorem compareValues_trans {x y z : SortValue}
    (hxy : compareValues x y ≤ 0) (hyz : compareValues y z ≤ 0) :
    compareValues x z ≤ 0 := by
  cases x <;> cases y <;> cases z <;> simp only [compareValues] at hxy hyz ⊢
  case str.str.str =>
    exact localeCompare_nonpos.mpr
      (le_trans (localeCompare_nonpos.mp hxy) (localeCompare_nonpos.mp hyz))
  case str.str.num => norm_num
  case str.num.str => norm_num at hyz
  case str.num.num => norm_num
  case num.str.str => norm_num at hxy
  case num.str.num => norm_num at hxy
  case num.num.str => norm_num at hyz
  case num.num.num => linarith

theorem compareValues_antisymm {x y : SortValue}
    (hxy : compareValues x y ≤ 0) (hyx : compareValues y x ≤ 0) : x = y := by
  cases x <;> cases y <;> simp only [compareValues] at *
  case str.str a b =>
    exact congrArg SortValue.str
      (le_antisymm (localeCompare_nonpos.mp hxy) (localeCompare_nonpos.mp hyx))
  case str.num => norm_num at hyx
  case num.str => norm_num at hxy
  case num.num a b =>
    exact congrArg SortValue.num (le_antisymm (by linarith) (by linarith))

instance (f : SortField) (d : SortDirection) : IsTotal EnrichedHolding (sortLE f d) where
  total a b := by cases d <;> exact compareValues_total _ _

instance (f : SortField) (d : SortDirection) : IsTrans EnrichedHolding (sortLE f d) where
  trans a b c hab hbc := by
    cases d
    · exact compareValues_trans hab hbc
    · exact compareValues_trans hbc hab

/-- Two sorted lists that are permutations of each other coincide, provided
the order relation is antisymmetric on the elements of the first list.
(The global relation need not be antisymmetric: rows with equal sort keys
are related both ways without being equal.) -/
theorem eq_of_perm_of_pairwise_of_antisymmOn {α : Type} {r : α → α → Prop} :
    ∀ {l₁ l₂ : List α}, List.Perm l₁ l₂ → l₁.Pairwise r → l₂.Pairwise r →
      (∀ a ∈ l₁, ∀ b ∈ l₁, r a b → r b a → a = b) → l₁ = l₂ := by
  intro l₁
  induction l₁ with
  | nil =>
    intro l₂ hp _ _ _
    exact (hp.symm.eq_nil).symm
  | cons x t ih =>
    intro l₂ hp h₁ h₂ hanti
    cases l₂ with
    | nil => exact absurd hp.eq_nil (by simp)
    | cons y t₂ =>
      have hx1 : ∀ b ∈ t, r x b := (List.pairwise_cons.mp h₁).1
      have hy2 : ∀ b ∈ t₂, r y b := (List.pairwise_cons.mp h₂).1
      have hxy : x = y := by
        rcases List.mem_cons.mp (hp.symm.subset (List.mem_cons_self y t₂)) with h | h
        · exact h.symm
        · rcases List.mem_cons.mp (hp.subset (List.mem_cons_self x t)) with h₃ | h₃
          · exact h₃
          · exact hanti x (List.mem_cons_self x t) y (List.mem_cons_of_mem x h)
              (hx1 y h) (hy2 x h₃)
      subst hxy
      have ht : t = t₂ :=
        ih hp.cons_inv (List.pairwise_cons.mp h₁).2 (List.pairwise_cons.mp h₂).2
          (fun a ha b hb => hanti a (List.mem_cons_of_mem x ha) b (List.mem_cons_of_mem x hb))
      rw [ht]

/-! ## Helper lemmas about enrichment, sums, and the sorted lists -/

theorem enrich_marketValue (h : Holding) :
    (enrich h).marketValue = h.totalShares * orZero h.security.currentPrice := rfl

theorem enrich_bookValue (h : Holding) :
    (enrich h).bookValue = h.totalShares * orZero h.averageCost := rfl

/-- A left fold that adds `g` of each element is the sum of the mapped list. -/
theorem foldl_add_map_sum (g : Holding → Rat) :
    ∀ (l : List Holding) (a : Rat),
      l.foldl (fun sum h => sum + g h) a = a + (l.map g).sum := by
  intro l
  induction l with
  | nil => intro a; simp
  | cons h t ih => intro a; simp [ih, add_assoc]

/-- The summary aggregator only depends on the multiset of rows. -/
theorem summarize_perm {es₁ es₂ : List EnrichedHolding} (hp : List.Perm es₁ es₂) :
    summarize es₁ = summarize es₂ := by
  have hv : (es₁.map fun e => e.marketValue).sum = (es₂.map fun e => e.marketValue).sum :=
    (hp.map _).sum_eq
  have hc : (es₁.map fun e => e.bookValue).sum = (es₂.map fun e => e.bookValue).sum :=
    (hp.map _).sum_eq
  simp only [summarize, hv, hc]

/-- The sorted list is a permutation of the enriched input. -/
theorem deriveAndSort_perm (hs : List Holding) (f : SortField) (d : SortDirection) :
    List.Perm (deriveAndSort hs f d) (enrichedHoldings hs) :=
  List.perm_insertionSort (sortLE f d) (enrichedHoldings hs)

theorem deriveAndSort_pairwise (hs : List Holding) (f : SortField) (d : SortDirection) :
    (deriveAndSort hs f d).Pairwise (sortLE f d) :=
  List.sorted_insertionSort (sortLE f d) (enrichedHoldings hs)

/-! ## Concrete data

The two holdings of the spec's concrete scenario, and a pair of holdings
with equal share counts (a sort-key tie) but different symbols. -/

def hAAPL : Holding :=
  { id := "h1", portfolioId := "p1", securityId := "s1", totalShares := 10,
    averageCost := some 100,
    security := { symbol := "AAPL", name := "Apple Inc", currentPrice := some 150 } }

def hTSLA : Holding :=
  { id := "h2", portfolioId := "p1", securityId := "s2", totalShares := 5,
    averageCost := some 200,
    security := { symbol := "TSLA", name := "Tesla Inc", currentPrice := some 180 } }

def hTieA : Holding :=
  { id := "t1", portfolioId := "p1", securityId := "s3", totalShares := 10,
    averageCost := some 1,
    security := { symbol := "AAA", name := "Alpha", currentPrice := some 1 } }

def hTieB : Holding :=
  { id := "t2", portfolioId := "p1", securityId := "s4", totalShares := 10,
    averageCost := some 2,
    security := { symbol := "BBB", name := "Beta", currentPrice := some 2 } }

/-- A storage state from which restore would succeed: a credential and a
parseable identity record. -/
def restorableStorage : Storage :=
  { token := some "tok123"
    user := some (serializeAuthUser { id := "u1", email := "user@example.com", fullName := none }) }

/-! ## Claim theorems -/

set_option maxRecDepth 200000

/-- Claim C1, counterexample: with two holdings whose `shares` sort keys are
equal (a tie), the stable sort keeps the input order under both directions,
so the reversed ascending result differs from the descending result. -/
theorem c1_tied_keys_counterexample :
    ¬ ((deriveAndSort [hTieA, hTieB] SortField.shares SortDirection.asc).reverse
      = deriveAndSort [hTieA, hTieB] SortField.shares SortDirection.desc) := by
  with_unfolding_all decide

/-- Claim C1, amended: for every holdings list whose enriched rows have
pairwise-distinct sort keys for the chosen field, the descending result is
the element-for-element reverse of the ascending result.  (On ties the
stable sort preserves input order in both directions, so the unrestricted
claim fails.) -/
theorem c1_desc_is_reverse_of_asc_on_distinct_keys (hs : List Holding) (f : SortField)
    (hdist : (enrichedHoldings hs).Pairwise (fun a b => sortValue f a ≠ sortValue f b)) :
    (deriveAndSort hs f SortDirection.asc).reverse = deriveAndSort hs f SortDirection.desc := by
  have hpermA := deriveAndSort_perm hs f SortDirection.asc
  have hpermD := deriveAndSort_perm hs f SortDirection.desc
  have hrevperm :
      List.Perm (deriveAndSort hs f SortDirection.asc).reverse (enrichedHoldings hs) :=
    (List.reverse_perm _).trans hpermA
  have hperm :
      List.Perm (deriveAndSort hs f SortDirection.asc).reverse
        (deriveAndSort hs f SortDirection.desc) :=
    hrevperm.trans hpermD.symm
  have hsortA := deriveAndSort_pairwise hs f SortDirection.asc
  have hrev :
      (deriveAndSort hs f SortDirection.asc).reverse.Pairwise (sortLE f SortDirection.desc) := by
    rw [List.pairwise_reverse]
    exact hsortA.imp (fun h => h)
  have hsortD := deriveAndSort_pairwise hs f SortDirection.desc
  apply eq_of_perm_of_pairwise_of_antisymmOn hperm hrev hsortD
  intro a ha b hb hab hba
  have hk : sortValue f a = sortValue f b := compareValues_antisymm hba hab
  by_contra hne
  have hsymm : Symmetric (fun a b : EnrichedHolding => sortValue f a ≠ sortValue f b) :=
    fun x y hxy he => hxy he.symm
  exact List.Pairwise.forall hsymm hdist (hrevperm.subset ha) (hrevperm.subset hb) hne hk

/-- Witness for the amended C1: the AAPL/TSLA pair has distinct `symbol`
keys, and the theorem applies. -/
theorem c1_desc_is_reverse_of_asc_witness :
    (enrichedHoldings [hAAPL, hTSLA]).Pairwise
      (fun a b => sortValue SortField.symbol a ≠ sortValue SortField.symbol b) ∧
    (deriveAndSort [hAAPL, hTSLA] SortField.symbol SortDirection.asc).reverse
      = deriveAndSort [hAAPL, hTSLA] SortField.symbol SortDirection.desc :=
  ⟨by decide, c1_desc_is_reverse_of_asc_on_distinct_keys [hAAPL, hTSLA] SortField.symbol
    (by decide)⟩

/-- Claim C2: the enrichment computes exactly the documented formulas —
`currentPrice` defaults an absent price to 0, `marketValue` and `bookValue`
are the share-count products, `unrealizedGain` is their exact difference,
and `unrealizedGainPercent` is the guarded quotient (exactly 0 unless
`bookValue > 0`); the source holding's fields are carried over unchanged,
and the function is total, so enrichment cannot throw. -/
theorem c2_enrichment_formulas (h : Holding) :
    (enrich h).currentPrice = orZero h.security.currentPrice ∧
    (enrich h).marketValue = (enrich h).totalShares * (enrich h).currentPrice ∧
    (enrich h).bookValue = (enrich h).totalShares * orZero h.averageCost ∧
    (enrich h).unrealizedGain = (enrich h).marketValue - (enrich h).bookValue ∧
    (enrich h).unrealizedGainPercent =
      (if (enrich h).bookValue > 0
        then (enrich h).unrealizedGain / (enrich h).bookValue else 0) ∧
    (enrich h).totalShares = h.totalShares ∧
    (enrich h).averageCost = h.averageCost ∧
    (enrich h).security = h.security :=
  ⟨rfl, rfl, rfl, rfl, rfl, rfl, rfl, rfl⟩

/-- Claim C3 (code bug): the provider initializes `isLoading` to `false`,
so at process start — before `initializeAuth` has run — a protected route
already renders the redirect to login, even when durable storage holds a
session that the restore routine would successfully restore.  The gating
logic itself is as specified (`isLoading = true` renders the loading page),
but the flag is never true during restoration. -/
theorem c3_protected_route_renders_login_before_restore :
    initialAuthState.isLoading = false ∧
    protectedRoute initialAuthState = RenderResult.redirectToLogin ∧
    protectedRoute { user := none, isLoading := true } = RenderResult.loadingPage ∧
    isAuthenticated (initializeAuth restorableStorage initialAuthState).2 = true := by
  refine ⟨rfl, rfl, rfl, ?_⟩
  decide

/-- Claim C4: when storage holds a (truthy) credential and an identity
string that does not parse, `restore` clears both stored values and leaves
the session unauthenticated; the parse failure is caught inside the
routine (the model is a total function), so nothing is thrown to the
caller. -/
theorem c4_restore_clears_corrupt_identity (tok userStr : String)
    (htok : tok ≠ "") (huser : userStr ≠ "") (hparse : parseAuthUser userStr = none) :
    initializeAuth { token := some tok, user := some userStr } initialAuthState
      = ({ token := none, user := none }, { user := none, isLoading := false }) ∧
    isAuthenticated
      (initializeAuth { token := some tok, user := some userStr } initialAuthState).2 = false := by
  have ht : strTruthy (some tok) = true := by simp [strTruthy, htok]
  have hu : strTruthy (some userStr) = true := by simp [strTruthy, huser]
  constructor
  · simp [initializeAuth, getAuthToken, ht, hu, hparse, clearAuthToken, initialAuthState]
  · simp [initializeAuth, getAuthToken, ht, hu, hparse, clearAuthToken, initialAuthState,
      isAuthenticated]

/-- Witness for C4 at the spec's concrete case: credential `tok123`,
identity `{not json` (brace written by code point). -/
theorem c4_restore_clears_corrupt_identity_witness :
    (("tok123" : String) ≠ "" ∧ ("\x7bnot json" : String) ≠ "" ∧
      parseAuthUser "\x7bnot json" = none) ∧
    (initializeAuth { token := some "tok123", user := some "\x7bnot json" } initialAuthState
        = ({ token := none, user := none }, { user := none, isLoading := false }) ∧
      isAuthenticated
        (initializeAuth { token := some "tok123", user := some "\x7bnot json" }
          initialAuthState).2 = false) :=
  ⟨⟨by decide, by decide, by decide⟩,
    c4_restore_clears_corrupt_identity "tok123" "\x7bnot json" (by decide) (by decide)
      (by decide)⟩

/-- Claim C5: for each of the six mutation hooks, a failed network call
leaves the cache exactly as it was (for the holding hooks, which register
no error callback, the entire state is unchanged), and the dependent keys
are invalidated precisely in the success branch, i.e. only after the call
resolved successfully. -/
theorem c5_invalidation_only_on_success (st : MutationState) (e : String)
    (pid uid hid : String) :
    (runCreateTransaction (Except.error e) st).cache = st.cache ∧
    (runUpdateTransaction (Except.error e) st).cache = st.cache ∧
    (runDeleteTransaction (Except.error e) st).cache = st.cache ∧
    runCreateHolding pid uid (Except.error e) st = st ∧
    runUpdateHolding pid uid hid (Except.error e) st = st ∧
    runDeleteHolding pid uid (Except.error e) st = st ∧
    (runCreateTransaction (Except.ok ()) st).cache
      = invalidateQueries portfolioKeysAll (invalidateQueries holdingKeysAll st.cache) ∧
    (runUpdateTransaction (Except.ok ()) st).cache
      = invalidateQueries portfolioKeysAll (invalidateQueries holdingKeysAll st.cache) ∧
    (runDeleteTransaction (Except.ok ()) st).cache
      = invalidateQueries portfolioKeysAll (invalidateQueries holdingKeysAll st.cache) ∧
    (runCreateHolding pid uid (Except.ok ()) st).cache
      = invalidateQueries (holdingKeysList pid uid) st.cache ∧
    (runUpdateHolding pid uid hid (Except.ok ()) st).cache
      = invalidateQueries (holdingKeysDetail pid uid hid) st.cache ∧
    (runDeleteHolding pid uid (Except.ok ()) st).cache
      = invalidateQueries (holdingKeysList pid uid) st.cache :=
  ⟨rfl, rfl, rfl, rfl, rfl, rfl, rfl, rfl, rfl, rfl, rfl, rfl⟩

/-- Claim C6: on gateway success, `login` stores the credential and the
serialized identity together and the session becomes authenticated; on
gateway failure, storage is exactly unchanged (no partial write), the user
state is untouched, a failure notification is emitted, and the error is
re-thrown to the caller. -/
theorem c6_login_success_and_failure (response : AuthResponse) (e : String)
    (storage : Storage) (st : AuthState) :
    ((loginModel (Except.ok response) storage st).storage.token = some response.token ∧
      (loginModel (Except.ok response) storage st).storage.user
        = some (serializeAuthUser response.user) ∧
      (loginModel (Except.ok response) storage st).state.user = some response.user ∧
      isAuthenticated (loginModel (Except.ok response) storage st).state = true ∧
      (loginModel (Except.ok response) storage st).threw = none) ∧
    ((loginModel (Except.error e) storage st).storage = storage ∧
      (loginModel (Except.error e) storage st).state.user = st.user ∧
      (loginModel (Except.error e) storage st).toasts = [Toast.failure "Login Failed" e] ∧
      (loginModel (Except.error e) storage st).threw = some e) :=
  ⟨⟨rfl, rfl, rfl, rfl, rfl⟩, ⟨rfl, rfl, rfl, rfl⟩⟩

/-- Claim C7: the summary of the derived-and-sorted list does not depend on
the order of the input holdings nor on the chosen sort field or
direction. -/
theorem c7_summary_order_independent (H H₂ : List Holding) (f f₂ : SortField)
    (d d₂ : SortDirection) (hp : List.Perm H H₂) :
    summarize (deriveAndSort H f d) = summarize (deriveAndSort H₂ f₂ d₂) :=
  summarize_perm (((deriveAndSort_perm H f d).trans (hp.map enrich)).trans
    (deriveAndSort_perm H₂ f₂ d₂).symm)

/-- Witness for C7: the two-element list and its swap, with two different
sorts. -/
theorem c7_summary_order_independent_witness :
    List.Perm [hAAPL, hTSLA] [hTSLA, hAAPL] ∧
    summarize (deriveAndSort [hAAPL, hTSLA] SortField.gain SortDirection.desc)
      = summarize (deriveAndSort [hTSLA, hAAPL] SortField.symbol SortDirection.asc) :=
  ⟨by decide, c7_summary_order_independent [hAAPL, hTSLA] [hTSLA, hAAPL]
    SortField.gain SortField.symbol SortDirection.desc SortDirection.asc (by decide)⟩

/-- Claim C8: the spec's concrete scenario.  Sorting by `gain desc` puts
AAPL (gain 500) before TSLA (gain −100), and the summary totals are
2400 / 2000 / 400 / 1∕5 (0.2 written as the exact rational). -/
theorem c8_concrete_scenario :
    (deriveAndSort [hAAPL, hTSLA] SortField.gain SortDirection.desc).map
        (fun e => e.security.symbol) = ["AAPL", "TSLA"] ∧
    (deriveAndSort [hAAPL, hTSLA] SortField.gain SortDirection.desc).map
        (fun e => e.unrealizedGain) = [500, -100] ∧
    dashboardSummary [hAAPL, hTSLA]
      = { totalValue := 2400, totalCost := 2000, totalGain := 400, totalGainPercent := 1 / 5 } ∧
    summarize (deriveAndSort [hAAPL, hTSLA] SortField.gain SortDirection.desc)
      = { totalValue := 2400, totalCost := 2000, totalGain := 400, totalGainPercent := 1 / 5 } := by
  refine ⟨?_, ?_, ?_, ?_⟩ <;> with_unfolding_all decide

/-- Claim C9: the dashboard's summary over the raw holdings equals the
spec's aggregator applied to the enriched holdings — the two computation
paths agree for every input. -/
theorem c9_dashboard_equals_enriched_summary (H : List Holding) :
    dashboardSummary H = summarize (enrichedHoldings H) := by
  cases H with
  | nil => simp [dashboardSummary, summarize, enrichedHoldings]
  | cons h t =>
    have hmv : List.map (fun e => e.marketValue) (enrichedHoldings (h :: t))
        = List.map (fun x => x.totalShares * orZero x.security.currentPrice) (h :: t) := by
      rw [enrichedHoldings, List.map_map]
      exact rfl
    have hbv : List.map (fun e => e.bookValue) (enrichedHoldings (h :: t))
        = List.map (fun x => x.totalShares * orZero x.averageCost) (h :: t) := by
      rw [enrichedHoldings, List.map_map]
      exact rfl
    simp only [dashboardSummary, summarize, List.length_cons, Nat.succ_ne_zero, if_false,
      hmv, hbv, foldl_add_map_sum, zero_add]

/-- Claim C10: when exactly one of the two stored values is present, the
restore routine takes its do-nothing branch: the session stays
unauthenticated and the single stale entry is left in storage. -/
theorem c10_restore_single_value_untouched (tok userStr : String) :
    initializeAuth { token := some tok, user := none } initialAuthState
      = ({ token := some tok, user := none }, { user := none, isLoading := false }) ∧
    isAuthenticated
      (initializeAuth { token := some tok, user := none } initialAuthState).2 = false ∧
    initializeAuth { token := none, user := some userStr } initialAuthState
      = ({ token := none, user := some userStr }, { user := none, isLoading := false }) ∧
    isAuthenticated
      (initializeAuth { token := none, user := some userStr } initialAuthState).2 = false := by
  refine ⟨?_, ?_, ?_, ?_⟩ <;>
    simp [initializeAuth, getAuthToken, strTruthy, initialAuthState, isAuthenticated]

end PortfolioTracker
